import Mathlib

/-!
Verification of the Cabo card-game WebSocket server (server.js).

The server keeps, per room, a mutable `game` object and mutates it in
response to JSON messages (CREATE_GAME, JOIN_GAME, START_GAME, DRAW_CARD,
TAKE_DISCARD, REPLACE_CARD, DISCARD_DRAWN, CALL_CABO, PEEK_*, SWITCH_CARDS).
We embed that state and those handlers shallowly:

* JavaScript arrays become Lean lists in source order; `push`/`pop` act on
  the last element (`jsPush` / `jsPop`).
* A JS array slot can hold `undefined` (out-of-range reads, and writes past
  the end leave holes), so card slots are `Option Card`; `none` is
  `undefined`/`null`.  Popping an empty array yields `undefined`, which JS
  cannot distinguish from a popped `undefined` element, so `jsPop`'s result
  is flattened with `Option.join` where the code stores it in `drawnCard`.
* `Math.random()`-driven choices (the room code, the shuffled deck) are
  passed in as explicit parameters, modelling the RNG as an oracle.
* A handler returns the updated game together with the message it sends;
  a JS `TypeError` path (e.g. `find` returning `undefined` followed by a
  property access) aborts the handler before any further mutation and is
  caught by the server's try/catch, which we model as the `Resp.thrown`
  response with the state as mutated so far.
-/

inductive Suit
  | spades | hearts | diamonds | clubs
deriving DecidableEq, Repr

inductive Rank
  | A | n2 | n3 | n4 | n5 | n6 | n7 | n8 | n9 | n10 | J | Q | K
deriving DecidableEq, Repr

/-- A card as the server builds it: `{ suit, value }`. -/
structure Card where
  suit : Suit
  value : Rank
deriving DecidableEq, Repr

/-- The order of suits in `createDeck`: `['♠', '♥', '♦', '♣']`. -/
def suitsList : List Suit := [.spades, .hearts, .diamonds, .clubs]

/-- The order of values in `createDeck`. -/
def valuesList : List Rank :=
  [.A, .n2, .n3, .n4, .n5, .n6, .n7, .n8, .n9, .n10, .J, .Q, .K]

/-- The deck as `createDeck` fills it before the shuffle: for each suit, for
each value, one card is pushed.  The shuffle is a `Math.random` permutation,
modelled by letting callers pass any permutation of this list. -/
def baseDeck : List Card :=
  suitsList.flatMap fun s => valuesList.map fun v => { suit := s, value := v }

/-- One iteration of `calculateScore`'s switch statement. -/
def cardScore (card : Card) : Int :=
  match card.value with
  | .A => 1
  | .J => 11
  | .Q => 12
  | .K => if card.suit = .hearts ∨ card.suit = .diamonds then -1 else 13
  | .n2 => 2
  | .n3 => 3
  | .n4 => 4
  | .n5 => 5
  | .n6 => 6
  | .n7 => 7
  | .n8 => 8
  | .n9 => 9
  | .n10 => 10

/-- `calculateScore(cards)`: fold the switch over the hand, starting from 0. -/
def calculateScore (cards : List Card) : Int :=
  cards.foldl (fun total card => total + cardScore card) 0

/-- Scoring applied to a JS hand (`Option Card` slots).  On hands whose
slots all hold cards — the only hands the server ever scores on the traces
we consider — this agrees with the JS `calculateScore`; a slot holding
`undefined` would make the JS function throw. -/
def scoreHand (cards : List (Option Card)) : Int :=
  calculateScore (cards.filterMap id)

abbrev PlayerId := String

/-- A player object as built by CREATE_GAME / JOIN_GAME. -/
structure Player where
  id : PlayerId
  name : String
  isHost : Bool
  cards : List (Option Card)
  score : Int
  canSeeCorners : Bool
deriving DecidableEq, Repr

inductive GState
  | lobby | playing | finished
deriving DecidableEq, Repr

/-- The per-room `game` object. -/
structure Game where
  code : String
  host : PlayerId
  players : List Player
  state : GState
  currentTurn : Nat
  deck : List (Option Card)
  discardPile : List (Option Card)
  round : Nat
  drawnCard : Option Card
  currentPlayerId : Option PlayerId
  caboCallerId : Option PlayerId
  turnsAfterCabo : Nat
deriving DecidableEq, Repr

/-- `arr.pop()`: remove and return the last element; `undefined` on empty. -/
def jsPop (l : List α) : Option α × List α := (l.getLast?, l.dropLast)

/-- `arr.push(x)`. -/
def jsPush (l : List α) (x : α) : List α := l ++ [x]

/-- `arr[k]` on an array of possibly-`undefined` slots: out-of-range reads
and holes both give `undefined`. -/
def jsGet : List (Option α) → Nat → Option α
  | [], _ => none
  | x :: _, 0 => x
  | _ :: xs, k + 1 => jsGet xs k

/-- `arr[k] = v`: in range it overwrites; past the end it extends the array
to length `k+1`, leaving `undefined` holes. -/
def jsSet : List (Option α) → Nat → Option α → List (Option α)
  | [], 0, v => [v]
  | [], k + 1, v => none :: jsSet [] k v
  | _ :: xs, 0, v => v :: xs
  | y :: xs, k + 1, v => y :: jsSet xs k v

/-- `players.find(p => p.id === pid)`. -/
def findPlayer (ps : List Player) (pid : PlayerId) : Option Player :=
  ps.find? fun p => p.id = pid

/-- Mutating the object returned by `players.find`: rewrite the first
element whose id matches, leave the rest alone. -/
def updateFirst (ps : List Player) (pid : PlayerId) (f : Player → Player) :
    List Player :=
  match ps with
  | [] => []
  | p :: rest =>
    if p.id = pid then f p :: rest else p :: updateFirst rest pid f

/-- The ERROR message texts the server sends. -/
inductive ErrMsg
  | gameNotFound      -- 'Game not found'
  | gameFull          -- 'Game is full'
  | nameTaken         -- 'Player name already taken'
  | needTwoPlayers    -- 'Need at least 2 players'
  | notYourTurn       -- 'Not your turn'
  | alreadyDrew       -- 'Already drew a card this turn'
  | invalidAction     -- 'Invalid action'
  | caboAlreadyCalled -- 'Cabo already called'
deriving DecidableEq, Repr

/-- The success message types the server sends/broadcasts. -/
inductive OkMsg
  | gameCreated | gameJoined | gameStarted | cardDrawn
  | cardReplaced | cardDiscarded | caboCalled | cardsSwitched
deriving DecidableEq, Repr

inductive Resp
  | error (m : ErrMsg)
  | ok (t : OkMsg)
  | thrown
deriving DecidableEq, Repr

/-- The fresh game object CREATE_GAME builds. -/
def newGame (code : String) (pid : PlayerId) (pname : String) : Game :=
  { code := code
    host := pid
    players := [{ id := pid, name := pname, isHost := true, cards := [],
                  score := 0, canSeeCorners := false }]
    state := .lobby
    currentTurn := 0
    deck := []
    discardPile := []
    round := 1
    drawnCard := none
    currentPlayerId := none
    caboCallerId := none
    turnsAfterCabo := 0 }

/-- The server's `games` map, room code to game. -/
abbrev Registry := List (String × Game)

def regGet (r : Registry) (code : String) : Option Game :=
  (r.find? fun e => e.1 = code).map (·.2)

/-- `games.set(code, g)`: replace the entry if the key exists, else add. -/
def regSet (r : Registry) (code : String) (g : Game) : Registry :=
  match r with
  | [] => [(code, g)]
  | e :: rest =>
    if e.1 = code then (code, g) :: rest else e :: regSet rest code g

/-- CREATE_GAME.  `code` is the `Math.random().toString(36)` room code,
passed in as the RNG oracle's output; the handler stores the new game under
it unconditionally (`games.set`), with no collision check. -/
def handleCreate (r : Registry) (code : String) (pid : PlayerId)
    (pname : String) : Registry × Game :=
  let g := newGame code pid pname
  (regSet r code g, g)

/-- The non-host player object JOIN_GAME appends. -/
def joiner (pid : PlayerId) (pname : String) : Player :=
  { id := pid, name := pname, isHost := false, cards := [], score := 0,
    canSeeCorners := false }

/-- JOIN_GAME. -/
def handleJoin (r : Registry) (code : String) (pid : PlayerId)
    (pname : String) : Registry × Resp :=
  match regGet r code with
  | none => (r, .error .gameNotFound)
  | some game =>
    if game.players.length ≥ 8 then (r, .error .gameFull)
    else if game.players.any (fun p => p.name = pname) then
      (r, .error .nameTaken)
    else
      let g1 := { game with players := game.players ++ [joiner pid pname] }
      (regSet r code g1, .ok .gameJoined)

/-- Deal one player's hand: `[deck.pop(), deck.pop(), deck.pop(), deck.pop()]`
(the array literal evaluates left to right). -/
def deal4 (deck : List (Option Card)) :
    List (Option Card) × List (Option Card) :=
  let s1 := jsPop deck
  let s2 := jsPop s1.2
  let s3 := jsPop s2.2
  let s4 := jsPop s3.2
  ([s1.1.join, s2.1.join, s3.1.join, s4.1.join], s4.2)

/-- `game.players.forEach(player => { player.cards = [...]; player.score = 0;
player.canSeeCorners = true })`, threading the deck through in player order. -/
def dealHands : List Player → List (Option Card) →
    List Player × List (Option Card)
  | [], d => ([], d)
  | p :: ps, d =>
    let h := deal4 d
    let rest := dealHands ps h.2
    ({ p with cards := h.1, score := 0, canSeeCorners := true } :: rest.1,
     rest.2)

/-- START_GAME.  `newDeck` is `createDeck()`'s output — some `Math.random`
permutation of `baseDeck` — passed in as the RNG oracle's output.  Note the
handler checks only the player count, not `game.state`, and leaves
`currentTurn`, `drawnCard`, `caboCallerId`, `turnsAfterCabo` and `round`
untouched. -/
def handleStart (g : Game) (newDeck : List Card) : Game × Resp :=
  if g.players.length < 2 then (g, .error .needTwoPlayers)
  else
    let deck0 : List (Option Card) := newDeck.map some
    let top := jsPop deck0
    let dealt := dealHands g.players top.2
    ({ g with
        state := .playing
        deck := dealt.2
        discardPile := [top.1.join]
        currentPlayerId := (g.players.get? 0).map (·.id)
        players := dealt.1 },
     .ok .gameStarted)

/-- DRAW_CARD: pop the deck top into `drawnCard`. -/
def handleDraw (g : Game) (pid : PlayerId) : Game × Resp :=
  if g.currentPlayerId ≠ some pid then (g, .error .notYourTurn)
  else if g.drawnCard.isSome then (g, .error .alreadyDrew)
  else
    let p := jsPop g.deck
    ({ g with deck := p.2, drawnCard := p.1.join }, .ok .cardDrawn)

/-- TAKE_DISCARD: pop the discard top into `drawnCard`. -/
def handleTakeDiscard (g : Game) (pid : PlayerId) : Game × Resp :=
  if g.currentPlayerId ≠ some pid then (g, .error .notYourTurn)
  else if g.drawnCard.isSome then (g, .error .alreadyDrew)
  else
    let p := jsPop g.discardPile
    ({ g with discardPile := p.2, drawnCard := p.1.join }, .ok .cardDrawn)

/-- The end-of-resolve bookkeeping shared by REPLACE_CARD and DISCARD_DRAWN:
if Cabo was called, bump `turnsAfterCabo` and, once it reaches the player
count, score every hand and finish; then, if still playing, advance the turn
(`nextTurn` plus the `currentPlayerId` refresh). -/
def afterResolve (g : Game) : Game :=
  let g2 :=
    if g.caboCallerId.isSome then
      let g1 := { g with turnsAfterCabo := g.turnsAfterCabo + 1 }
      if g1.turnsAfterCabo ≥ g1.players.length then
        { g1 with
            players := g1.players.map fun p =>
              { p with score := scoreHand p.cards }
            state := .finished }
      else g1
    else g
  if g2.state = .playing then
    let ct := (g2.currentTurn + 1) % g2.players.length
    { g2 with
        currentTurn := ct
        currentPlayerId := (g2.players.get? ct).map (·.id) }
  else g2

/-- REPLACE_CARD: put `drawnCard` into `hand[cardIndex]`, push the displaced
slot onto the discard pile, clear `drawnCard`, then `afterResolve`. -/
def handleReplace (g : Game) (pid : PlayerId) (cardIndex : Nat) :
    Game × Resp :=
  if g.currentPlayerId ≠ some pid ∨ g.drawnCard = none then
    (g, .error .invalidAction)
  else
    match findPlayer g.players pid with
    | none => (g, .thrown)
    | some player =>
      let oldCard := jsGet player.cards cardIndex
      let g1 := { g with
        players := updateFirst g.players pid fun p =>
          { p with cards := jsSet p.cards cardIndex g.drawnCard }
        discardPile := jsPush g.discardPile oldCard
        drawnCard := none }
      (afterResolve g1, .ok .cardReplaced)

/-- DISCARD_DRAWN: push `drawnCard` onto the discard pile, clear it, then
`afterResolve`. -/
def handleDiscardDrawn (g : Game) (pid : PlayerId) : Game × Resp :=
  if g.currentPlayerId ≠ some pid ∨ g.drawnCard = none then
    (g, .error .invalidAction)
  else
    let g1 := { g with
      discardPile := jsPush g.discardPile g.drawnCard
      drawnCard := none }
    (afterResolve g1, .ok .cardDiscarded)

/-- CALL_CABO. -/
def handleCallCabo (g : Game) (pid : PlayerId) : Game × Resp :=
  if g.currentPlayerId ≠ some pid then (g, .error .notYourTurn)
  else if g.caboCallerId.isSome then (g, .error .caboAlreadyCalled)
  else ({ g with caboCallerId := some pid, turnsAfterCabo := 0 },
        .ok .caboCalled)

/-- SWITCH_CARDS: the server looks up both players and runs
`temp = player.cards[i]; player.cards[i] = opponent.cards[j];
opponent.cards[j] = temp` — both reads happen before either write.  A failed
lookup makes the property access throw before any mutation. -/
def handleSwitch (g : Game) (pid oid : PlayerId) (i j : Nat) : Game × Resp :=
  match findPlayer g.players pid, findPlayer g.players oid with
  | some player, some opponent =>
    let a := jsGet player.cards i
    let b := jsGet opponent.cards j
    let g1 := { g with
      players := updateFirst g.players pid fun p =>
        { p with cards := jsSet p.cards i b } }
    let g2 := { g1 with
      players := updateFirst g1.players oid fun p =>
        { p with cards := jsSet p.cards j a } }
    (g2, .ok .cardsSwitched)
  | _, _ => (g, .thrown)

/-- Number of slots of a pile actually holding a card (`undefined` holes do
not count). -/
def countSomes (l : List (Option Card)) : Nat := (l.filterMap id).length

def optCnt (o : Option Card) : Nat := if o.isSome then 1 else 0

/-- Total cards sitting in the players' hands. -/
def sumHands (ps : List Player) : Nat :=
  (ps.map fun p => countSomes p.cards).sum

/-- The quantity the spec's conservation invariant talks about:
`|deck| + |discardPile| + Σ|hand|`. -/
def pileSum (g : Game) : Nat :=
  countSomes g.deck + countSomes g.discardPile + sumHands g.players

/-- `pileSum` plus the drawn-but-unresolved card, if any. -/
def cardCount (g : Game) : Nat := pileSum g + optCnt g.drawnCard

/-- Modelled from the spec: the face value of a rank (`A=1`, numeral ranks =
face value, `J=11`, `Q=12`, `K=13`). -/
def rankFace : Rank → Int
  | .A => 1
  | .n2 => 2
  | .n3 => 3
  | .n4 => 4
  | .n5 => 5
  | .n6 => 6
  | .n7 => 7
  | .n8 => 8
  | .n9 => 9
  | .n10 => 10
  | .J => 11
  | .Q => 12
  | .K => 13

def isRedSuit (s : Suit) : Bool := s = .hearts ∨ s = .diamonds

/-- Modelled from the spec: the value table of §3 — a card is worth its
rank's face value, except a King of a red suit, worth −1. -/
def specCardValue (c : Card) : Int :=
  if c.value = .K ∧ isRedSuit c.suit then -1 else rankFace c.value

/-! ### A concrete legal play-through, used as a trace witness

Alice creates room ABC123, Bob joins, the game starts on the unshuffled
deck, Alice calls Cabo, draws and discards (first resolve after the call),
then Bob draws and discards (second resolve), which finishes the game. -/

def demoLobby : Game :=
  { newGame "ABC123" "p1" "Alice" with
      players := (newGame "ABC123" "p1" "Alice").players ++
        [{ id := "p2", name := "Bob", isHost := false, cards := [],
           score := 0, canSeeCorners := false }] }

def demoPlaying : Game := (handleStart demoLobby baseDeck).1

def demoCabo : Game := (handleCallCabo demoPlaying "p1").1

def demoDraw1 : Game := (handleDraw demoCabo "p1").1

def demoR1 : Game := (handleDiscardDrawn demoDraw1 "p1").1

def demoDraw2 : Game := (handleDraw demoR1 "p2").1

def demoFinished : Game := (handleDiscardDrawn demoDraw2 "p2").1

/-- A session shaped like a lobby whose creator is already the current
player, with both piles empty: a concrete input for `empty_pile_acquire`. -/
def emptyPilesGame : Game :=
  { newGame "EE" "p1" "Alice" with currentPlayerId := some "p1" }

/-- An 8-player room, to exercise the GameFull branch. -/
def fullRoom : Game :=
  { newGame "RR" "h0" "H0" with
      players := (List.range 8).map fun k =>
        { id := "h" ++ toString k, name := "H" ++ toString k,
          isHost := k = 0, cards := [], score := 0, canSeeCorners := false } }

/-- Alice's and Bob's player objects in `demoPlaying`. -/
def demoAlice : Player :=
  { id := "p1", name := "Alice", isHost := true,
    cards := [some ⟨.clubs, .Q⟩, some ⟨.clubs, .J⟩, some ⟨.clubs, .n10⟩,
              some ⟨.clubs, .n9⟩],
    score := 0, canSeeCorners := true }

def demoBob : Player :=
  { id := "p2", name := "Bob", isHost := false,
    cards := [some ⟨.clubs, .n8⟩, some ⟨.clubs, .n7⟩, some ⟨.clubs, .n6⟩,
              some ⟨.clubs, .n5⟩],
    score := 0, canSeeCorners := true }

/-- The §3 invariant: every hand has exactly 4 slots. -/
def Hands4 (g : Game) : Prop := ∀ p ∈ g.players, p.cards.length = 4

instance hands4Decidable (g : Game) : Decidable (Hands4 g) :=
  inferInstanceAs (Decidable (∀ p ∈ g.players, p.cards.length = 4))

/-! ### Basic facts about the JS array model -/

theorem jsGet_jsSet_same (l : List (Option α)) (k : Nat) (v : Option α) :
    jsGet (jsSet l k v) k = v := by
  induction k generalizing l with
  | zero => cases l <;> rfl
  | succ k ih =>
    cases l with
    | nil => simpa [jsSet, jsGet] using ih []
    | cons y xs => simpa [jsSet, jsGet] using ih xs

theorem jsGet_jsSet_other (l : List (Option α)) {k k' : Nat} (v : Option α)
    (h : k' ≠ k) : jsGet (jsSet l k v) k' = jsGet l k' := by
  induction k generalizing l k' with
  | zero =>
    cases l with
    | nil =>
      cases k' with
      | zero => exact absurd rfl h
      | succ j => simp [jsSet, jsGet]
    | cons y xs =>
      cases k' with
      | zero => exact absurd rfl h
      | succ j => simp [jsSet, jsGet]
  | succ k ih =>
    cases l with
    | nil =>
      cases k' with
      | zero => simp [jsSet, jsGet]
      | succ j =>
        have hj : j ≠ k := fun he => h (by rw [he])
        simpa [jsSet, jsGet] using ih [] hj
    | cons y xs =>
      cases k' with
      | zero => simp [jsSet, jsGet]
      | succ j =>
        have hj : j ≠ k := fun he => h (by rw [he])
        simpa [jsSet, jsGet] using ih xs hj

theorem length_jsSet_of_lt (l : List (Option α)) {k : Nat} (v : Option α)
    (h : k < l.length) : (jsSet l k v).length = l.length := by
  induction k generalizing l with
  | zero =>
    cases l with
    | nil => simp at h
    | cons y xs => rfl
  | succ k ih =>
    cases l with
    | nil => simp at h
    | cons y xs =>
      have : k < xs.length := by simpa using h
      simp [jsSet, ih xs this]

theorem countSomes_nil : countSomes [] = 0 := rfl

theorem countSomes_cons (x : Option Card) (l : List (Option Card)) :
    countSomes (x :: l) = optCnt x + countSomes l := by
  cases x <;> simp [countSomes, optCnt, List.filterMap_cons, Nat.add_comm]

theorem countSomes_append (l₁ l₂ : List (Option Card)) :
    countSomes (l₁ ++ l₂) = countSomes l₁ + countSomes l₂ := by
  simp [countSomes, List.filterMap_append]

theorem countSomes_jsSet (l : List (Option Card)) (k : Nat) (v : Option Card) :
    countSomes (jsSet l k v) + optCnt (jsGet l k) =
      countSomes l + optCnt v := by
  induction k generalizing l with
  | zero =>
    cases l with
    | nil => simp [jsSet, jsGet, countSomes_cons, countSomes_nil, optCnt]
    | cons y xs =>
      simp only [jsSet, jsGet, countSomes_cons]
      omega
  | succ k ih =>
    cases l with
    | nil =>
      have h := ih []
      simp only [jsSet, jsGet, countSomes_cons, countSomes_nil] at h ⊢
      simp only [optCnt, Option.isSome_none, Bool.false_eq_true, if_false] at h ⊢
      omega
    | cons y xs =>
      have h := ih xs
      simp only [jsSet, jsGet, countSomes_cons]
      omega

theorem countSomes_jsPop (l : List (Option Card)) :
    countSomes (jsPop l).2 + optCnt ((jsPop l).1.join) = countSomes l := by
  induction l using List.reverseRecOn with
  | nil => rfl
  | append_singleton xs a _ =>
    simp [jsPop, List.dropLast_concat, List.getLast?_concat, countSomes_append,
      countSomes_cons, countSomes_nil]

theorem countSomes_jsPush (l : List (Option Card)) (x : Option Card) :
    countSomes (jsPush l x) = countSomes l + optCnt x := by
  simp [jsPush, countSomes_append, countSomes_cons, countSomes_nil]

/-! ### Facts about `updateFirst` and `findPlayer` -/

theorem length_updateFirst (ps : List Player) (pid : PlayerId)
    (f : Player → Player) : (updateFirst ps pid f).length = ps.length := by
  induction ps with
  | nil => rfl
  | cons p rest ih =>
    by_cases h : p.id = pid <;> simp [updateFirst, h, ih]

theorem findPlayer_updateFirst_self (ps : List Player) (pid : PlayerId)
    (f : Player → Player) (hf : ∀ p, (f p).id = p.id) :
    findPlayer (updateFirst ps pid f) pid = (findPlayer ps pid).map f := by
  induction ps with
  | nil => rfl
  | cons p rest ih =>
    by_cases h : p.id = pid
    · simp [updateFirst, findPlayer, List.find?_cons, h, hf p]
    · simpa [updateFirst, findPlayer, List.find?_cons, h] using ih

theorem findPlayer_updateFirst_other (ps : List Player) {pid qid : PlayerId}
    (f : Player → Player) (hq : qid ≠ pid) (hf : ∀ p, (f p).id = p.id) :
    findPlayer (updateFirst ps pid f) qid = findPlayer ps qid := by
  induction ps with
  | nil => rfl
  | cons p rest ih =>
    by_cases h : p.id = pid
    · have hne : ¬ (f p).id = qid := by rw [hf p, h]; exact fun he => hq he.symm
      have hpid : ¬ pid = qid := fun he => hq he.symm
      simp [updateFirst, findPlayer, List.find?_cons, h, hne, hpid]
    · by_cases h2 : p.id = qid
      · simp [updateFirst, findPlayer, List.find?_cons, h, h2, hq]
      · simpa [updateFirst, findPlayer, List.find?_cons, h, h2] using ih

theorem map_updateFirst (ps : List Player) (pid : PlayerId)
    (f : Player → Player) (h : Player → β) (hfh : ∀ p, h (f p) = h p) :
    (updateFirst ps pid f).map h = ps.map h := by
  induction ps with
  | nil => rfl
  | cons p rest ih =>
    by_cases hp : p.id = pid <;> simp [updateFirst, hp, ih, hfh p]

theorem sumHands_cons (p : Player) (ps : List Player) :
    sumHands (p :: ps) = countSomes p.cards + sumHands ps := by
  simp [sumHands]

theorem sumHands_updateFirst (ps : List Player) (pid : PlayerId)
    (f : Player → Player) {P : Player} (hfind : findPlayer ps pid = some P) :
    sumHands (updateFirst ps pid f) + countSomes P.cards =
      sumHands ps + countSomes (f P).cards := by
  induction ps with
  | nil => simp [findPlayer] at hfind
  | cons p rest ih =>
    by_cases h : p.id = pid
    · have : P = p := by
        simpa [findPlayer, List.find?_cons, h] using hfind.symm
      subst this
      simp only [updateFirst, h, if_true, sumHands_cons]
      omega
    · have hfind' : findPlayer rest pid = some P := by
        simpa [findPlayer, List.find?_cons, h] using hfind
      have := ih hfind'
      simp only [updateFirst, h, if_false, sumHands_cons]
      omega

theorem mem_updateFirst (ps : List Player) (pid : PlayerId)
    (f : Player → Player) :
    ∀ p' ∈ updateFirst ps pid f, p' ∈ ps ∨ ∃ q ∈ ps, p' = f q := by
  induction ps with
  | nil => intro p' h; simp [updateFirst] at h
  | cons p rest ih =>
    intro p' hmem
    by_cases h : p.id = pid
    · simp only [updateFirst, h, if_true, List.mem_cons] at hmem
      rcases hmem with he | hrest
      · exact Or.inr ⟨p, List.mem_cons_self p rest, he⟩
      · exact Or.inl (List.mem_cons_of_mem p hrest)
    · simp only [updateFirst, h, if_false, List.mem_cons] at hmem
      rcases hmem with he | hrest
      · exact Or.inl (he ▸ List.mem_cons_self p rest)
      · rcases ih p' hrest with hin | ⟨q, hq, he⟩
        · exact Or.inl (List.mem_cons_of_mem p hin)
        · exact Or.inr ⟨q, List.mem_cons_of_mem p hq, he⟩

/-! ### Scoring -/

theorem foldl_add_cardScore (l : List Card) (a : Int) :
    l.foldl (fun total card => total + cardScore card) a =
      a + (l.map cardScore).sum := by
  induction l generalizing a with
  | nil => simp
  | cons c cs ih => simp [List.foldl_cons, ih]; omega

theorem cardScore_eq_specCardValue (c : Card) :
    cardScore c = specCardValue c := by
  rcases c with ⟨s, v⟩
  cases s <;> cases v <;> rfl

/-- C9: `score(hand)` is the pointwise sum of the value table — A = 1,
numeral ranks = face value, J = 11, Q = 12, K = 13 except a red-suited King
= −1 — and in particular the hand [A♠, K♥, 5♣, Q♦] scores 17 and the hand
[K♠, K♣, K♥, K♦] scores 24. -/
theorem calculateScore_value_table :
    (∀ cards : List Card,
        calculateScore cards = (cards.map specCardValue).sum) ∧
    calculateScore [⟨.spades, .A⟩, ⟨.hearts, .K⟩, ⟨.clubs, .n5⟩,
        ⟨.diamonds, .Q⟩] = 17 ∧
    calculateScore [⟨.spades, .K⟩, ⟨.clubs, .K⟩, ⟨.hearts, .K⟩,
        ⟨.diamonds, .K⟩] = 24 := by
  refine ⟨fun cards => ?_, by decide, by decide⟩
  rw [calculateScore, foldl_add_cardScore]
  have : cards.map cardScore = cards.map specCardValue :=
    List.map_congr_left fun c _ => cardScore_eq_specCardValue c
  rw [this]
  omega

/-- Every step of the demo trace is accepted by the server, so it is a legal
action sequence from the lobby onwards. -/
theorem demo_trace_legal :
    (handleJoin (handleCreate [] "ABC123" "p1" "Alice").1 "ABC123" "p2"
        "Bob").1 = [("ABC123", demoLobby)] ∧
    (handleStart demoLobby baseDeck).2 = .ok .gameStarted ∧
    (handleCallCabo demoPlaying "p1").2 = .ok .caboCalled ∧
    (handleDraw demoCabo "p1").2 = .ok .cardDrawn ∧
    (handleDiscardDrawn demoDraw1 "p1").2 = .ok .cardDiscarded ∧
    (handleDraw demoR1 "p2").2 = .ok .cardDrawn ∧
    (handleDiscardDrawn demoDraw2 "p2").2 = .ok .cardDiscarded := by
  decide

/-- C5 (bug evidence): CREATE_GAME computes its room code with one call to
`Math.random` and stores the session with `games.set(code, game)` — no
uniqueness check against the active sessions.  When the generated code
collides with an existing room (here "ABC123"), the existing session is
silently overwritten and lost; the spec requires a fresh code to be
regenerated instead.  The created session itself is in Lobby with exactly
the creator as host. -/
theorem create_overwrites_on_collision :
    (handleCreate [("ABC123", newGame "ABC123" "p1" "Alice")] "ABC123" "p2"
        "Bob").1 = [("ABC123", newGame "ABC123" "p2" "Bob")] ∧
    regGet (handleCreate [("ABC123", newGame "ABC123" "p1" "Alice")]
        "ABC123" "p2" "Bob").1 "ABC123" = some (newGame "ABC123" "p2" "Bob") ∧
    newGame "ABC123" "p2" "Bob" ≠ newGame "ABC123" "p1" "Alice" ∧
    (newGame "ABC123" "p2" "Bob").state = .lobby ∧
    ((handleCreate [] "ABC123" "p2" "Bob").2.players.map fun p =>
        (p.name, p.isHost)) = [("Bob", true)] := by
  decide

/-- C3 (bug evidence): the Finished state is not terminal.  START_GAME
checks only the player count, never `game.state`, so sending START_GAME to
the finished demo session moves it back to Playing — and the stale
`caboCallerId` from the finished round survives into the restarted game. -/
theorem start_game_leaves_finished :
    demoFinished.state = .finished ∧
    (handleStart demoFinished baseDeck).2 = .ok .gameStarted ∧
    (handleStart demoFinished baseDeck).1.state = .playing ∧
    (handleStart demoFinished baseDeck).1.caboCallerId = some "p1" := by
  decide

/-! ### C10: acquiring from an empty pile -/

/-- C10: a DRAW_CARD on an empty deck (or TAKE_DISCARD on an empty discard
pile) by the current player holding no card is not an error: `pop` yields
`undefined`, `drawnCard` stays unset, the session is left exactly as it was,
CARD_DRAWN is still broadcast, and a further acquire request behaves the
same way. -/
theorem empty_pile_acquire (g : Game) (pid : PlayerId)
    (hcur : g.currentPlayerId = some pid) (hheld : g.drawnCard = none) :
    (g.deck = [] →
       handleDraw g pid = (g, .ok .cardDrawn) ∧
       handleDraw (handleDraw g pid).1 pid = (g, .ok .cardDrawn)) ∧
    (g.discardPile = [] →
       handleTakeDiscard g pid = (g, .ok .cardDrawn) ∧
       handleTakeDiscard (handleTakeDiscard g pid).1 pid =
         (g, .ok .cardDrawn)) := by
  obtain ⟨code, host, players, state, currentTurn, deck, discardPile, round,
    drawnCard, currentPlayerId, caboCallerId, turnsAfterCabo⟩ := g
  simp only at hcur hheld
  subst hcur hheld
  refine ⟨fun hdeck => ?_, fun hdisc => ?_⟩
  · simp only at hdeck
    subst hdeck
    constructor <;> simp [handleDraw, jsPop]
  · simp only at hdisc
    subst hdisc
    constructor <;> simp [handleTakeDiscard, jsPop]

theorem empty_pile_acquire_witness :
    handleDraw emptyPilesGame "p1" = (emptyPilesGame, .ok .cardDrawn) ∧
    handleTakeDiscard emptyPilesGame "p1" =
      (emptyPilesGame, .ok .cardDrawn) :=
  ⟨((empty_pile_acquire emptyPilesGame "p1" rfl rfl).1 rfl).1,
   ((empty_pile_acquire emptyPilesGame "p1" rfl rfl).2 rfl).1⟩

/-! ### C6: JOIN_GAME validation -/

/-- C6: JOIN_GAME fails with GameNotFound when the code names no session,
with GameFull when the room already has 8 players, and with NameTaken when
the name is already present under exact string comparison; each failure
leaves the registry — hence the session and its player list — untouched,
and a successful join appends exactly one non-host player with the given
name. -/
theorem join_validation (r : Registry) (code : String) (pid : PlayerId)
    (pname : String) :
    (regGet r code = none →
       handleJoin r code pid pname = (r, .error .gameNotFound)) ∧
    ∀ g, regGet r code = some g →
      (g.players.length ≥ 8 →
         handleJoin r code pid pname = (r, .error .gameFull)) ∧
      (g.players.length < 8 → (∃ p ∈ g.players, p.name = pname) →
         handleJoin r code pid pname = (r, .error .nameTaken)) ∧
      (g.players.length < 8 → (∀ p ∈ g.players, p.name ≠ pname) →
         handleJoin r code pid pname =
           (regSet r code
              { g with players := g.players ++ [joiner pid pname] },
            .ok .gameJoined)) := by
  refine ⟨fun hnone => ?_,
    fun g hg => ⟨fun h8 => ?_, fun h8 hex => ?_, fun h8 hall => ?_⟩⟩
  · simp [handleJoin, hnone]
  · simp [handleJoin, hg, h8]
  · have h8' : ¬ g.players.length ≥ 8 := by omega
    have hany : g.players.any (fun p => p.name = pname) = true := by
      simp only [List.any_eq_true, decide_eq_true_eq]
      exact hex
    simp [handleJoin, hg, h8', hany]
  · have h8' : ¬ g.players.length ≥ 8 := by omega
    have hany : g.players.any (fun p => p.name = pname) = false := by
      simp only [List.any_eq_false, decide_eq_true_eq]
      exact hall
    simp [handleJoin, hg, h8', hany]

theorem join_validation_witness :
    handleJoin [] "RR" "p9" "Zoe" = ([], .error .gameNotFound) ∧
    handleJoin [("RR", fullRoom)] "RR" "p9" "Zoe" =
      ([("RR", fullRoom)], .error .gameFull) ∧
    handleJoin [("ABC123", demoLobby)] "ABC123" "p9" "Bob" =
      ([("ABC123", demoLobby)], .error .nameTaken) ∧
    handleJoin [("ABC123", demoLobby)] "ABC123" "p9" "Zoe" =
      (regSet [("ABC123", demoLobby)] "ABC123"
         { demoLobby with
             players := demoLobby.players ++ [joiner "p9" "Zoe"] },
       .ok .gameJoined) :=
  ⟨(join_validation [] "RR" "p9" "Zoe").1 rfl,
   ((join_validation [("RR", fullRoom)] "RR" "p9" "Zoe").2 fullRoom
      (by decide)).1 (by decide),
   (((join_validation [("ABC123", demoLobby)] "ABC123" "p9" "Bob").2
      demoLobby (by decide)).2.1 (by decide) (by decide)),
   (((join_validation [("ABC123", demoLobby)] "ABC123" "p9" "Zoe").2
      demoLobby (by decide)).2.2 (by decide) (by decide))⟩

/-! ### C4: acquire/resolve guards -/

/-- C4 (amended): on a session, DRAW_CARD and TAKE_DISCARD are rejected with
NotYourTurn when the requester is not the current player, and with
AlreadyHeldCard ('Already drew a card this turn') when a card is already
held; otherwise they pop the top of the deck (resp. discard pile) into the
held slot.  REPLACE_CARD and DISCARD_DRAWN are rejected with the single
generic InvalidAction error whenever the requester is not the current
player or no card is held.  Every rejection leaves the session unchanged. -/
theorem acquire_resolve_guards (g : Game) (pid : PlayerId) (idx : Nat) :
    (g.currentPlayerId ≠ some pid →
       handleDraw g pid = (g, .error .notYourTurn) ∧
       handleTakeDiscard g pid = (g, .error .notYourTurn)) ∧
    (g.currentPlayerId = some pid → g.drawnCard.isSome →
       handleDraw g pid = (g, .error .alreadyDrew) ∧
       handleTakeDiscard g pid = (g, .error .alreadyDrew)) ∧
    (g.currentPlayerId = some pid → g.drawnCard = none →
       handleDraw g pid =
         ({ g with deck := (jsPop g.deck).2,
                   drawnCard := (jsPop g.deck).1.join }, .ok .cardDrawn) ∧
       handleTakeDiscard g pid =
         ({ g with discardPile := (jsPop g.discardPile).2,
                   drawnCard := (jsPop g.discardPile).1.join },
          .ok .cardDrawn)) ∧
    (g.currentPlayerId ≠ some pid ∨ g.drawnCard = none →
       handleReplace g pid idx = (g, .error .invalidAction) ∧
       handleDiscardDrawn g pid = (g, .error .invalidAction)) := by
  refine ⟨fun hne => ?_, fun hcur hheld => ?_, fun hcur hheld => ?_,
    fun hor => ?_⟩
  · constructor <;> simp [handleDraw, handleTakeDiscard, hne]
  · constructor <;>
      simp [handleDraw, handleTakeDiscard, hcur, hheld]
  · constructor <;>
      simp [handleDraw, handleTakeDiscard, hcur, hheld]
  · constructor <;>
      simp [handleReplace, handleDiscardDrawn, hor]

/-- The states used to exercise `acquire_resolve_guards` concretely:
in `demoDraw1` Alice is current and holds a card; in `demoPlaying` she is
current and holds none. -/
theorem acquire_resolve_guards_witness :
    (handleDraw demoDraw1 "p2" = (demoDraw1, .error .notYourTurn) ∧
     handleTakeDiscard demoDraw1 "p2" = (demoDraw1, .error .notYourTurn)) ∧
    (handleDraw demoDraw1 "p1" = (demoDraw1, .error .alreadyDrew) ∧
     handleTakeDiscard demoDraw1 "p1" = (demoDraw1, .error .alreadyDrew)) ∧
    (handleReplace demoDraw1 "p2" 0 = (demoDraw1, .error .invalidAction) ∧
     handleDiscardDrawn demoDraw1 "p2" = (demoDraw1, .error .invalidAction)) :=
  ⟨(acquire_resolve_guards demoDraw1 "p2" 0).1 (by decide),
   (acquire_resolve_guards demoDraw1 "p1" 0).2.1 (by decide) (by decide),
   (acquire_resolve_guards demoDraw1 "p2" 0).2.2.2 (Or.inl (by decide))⟩

/-- C4 (counterexample to the claim as stated): the resolve handlers never
produce a NotYourTurn or NoHeldCard reply.  In `demoDraw1` it is Alice's
turn and she holds a card; Bob's REPLACE_CARD is answered with the generic
'Invalid action', while his DRAW_CARD would get 'Not your turn' — and
Alice's own REPLACE_CARD before drawing (in `demoPlaying`, where she holds
nothing) gets the very same 'Invalid action', not a distinct NoHeldCard. -/
theorem resolve_errors_not_distinguished :
    demoDraw1.currentPlayerId = some "p1" ∧
    demoDraw1.drawnCard.isSome = true ∧
    handleReplace demoDraw1 "p2" 0 = (demoDraw1, .error .invalidAction) ∧
    handleDraw demoDraw1 "p2" = (demoDraw1, .error .notYourTurn) ∧
    demoPlaying.currentPlayerId = some "p1" ∧
    demoPlaying.drawnCard = none ∧
    handleReplace demoPlaying "p1" 0 = (demoPlaying, .error .invalidAction) ∧
    ErrMsg.invalidAction ≠ ErrMsg.notYourTurn := by
  decide

/-! ### C8: SWITCH_CARDS is an exact two-slot exchange -/

/-- C8: SWITCH_CARDS, issued by any connection naming two (distinct,
present) players and any two slot indices, regardless of turn ownership,
exchanges exactly the two named slots: the named players' hands now read
each other's former card at those slots, every other slot of theirs reads
as before, every other player is untouched, and the deck, discard pile,
scores, turn fields, caboCallerId and turnsAfterCabo are all unchanged. -/
theorem switch_cards_frame (g : Game) (pid oid : PlayerId) (i j : Nat)
    (P O : Player) (hne : pid ≠ oid)
    (hp : findPlayer g.players pid = some P)
    (ho : findPlayer g.players oid = some O) :
    (handleSwitch g pid oid i j).2 = .ok .cardsSwitched ∧
    findPlayer (handleSwitch g pid oid i j).1.players pid =
      some { P with cards := jsSet P.cards i (jsGet O.cards j) } ∧
    findPlayer (handleSwitch g pid oid i j).1.players oid =
      some { O with cards := jsSet O.cards j (jsGet P.cards i) } ∧
    jsGet (jsSet P.cards i (jsGet O.cards j)) i = jsGet O.cards j ∧
    jsGet (jsSet O.cards j (jsGet P.cards i)) j = jsGet P.cards i ∧
    (∀ k, k ≠ i →
       jsGet (jsSet P.cards i (jsGet O.cards j)) k = jsGet P.cards k) ∧
    (∀ k, k ≠ j →
       jsGet (jsSet O.cards j (jsGet P.cards i)) k = jsGet O.cards k) ∧
    (∀ qid, qid ≠ pid → qid ≠ oid →
       findPlayer (handleSwitch g pid oid i j).1.players qid =
         findPlayer g.players qid) ∧
    ((handleSwitch g pid oid i j).1.players.map fun p => p.id) =
      (g.players.map fun p => p.id) ∧
    ((handleSwitch g pid oid i j).1.players.map fun p => p.score) =
      (g.players.map fun p => p.score) ∧
    (handleSwitch g pid oid i j).1.code = g.code ∧
    (handleSwitch g pid oid i j).1.host = g.host ∧
    (handleSwitch g pid oid i j).1.state = g.state ∧
    (handleSwitch g pid oid i j).1.currentTurn = g.currentTurn ∧
    (handleSwitch g pid oid i j).1.deck = g.deck ∧
    (handleSwitch g pid oid i j).1.discardPile = g.discardPile ∧
    (handleSwitch g pid oid i j).1.round = g.round ∧
    (handleSwitch g pid oid i j).1.drawnCard = g.drawnCard ∧
    (handleSwitch g pid oid i j).1.currentPlayerId = g.currentPlayerId ∧
    (handleSwitch g pid oid i j).1.caboCallerId = g.caboCallerId ∧
    (handleSwitch g pid oid i j).1.turnsAfterCabo = g.turnsAfterCabo := by
  have hid1 : ∀ p : Player,
      ({ p with cards := jsSet p.cards i (jsGet O.cards j) }).id = p.id :=
    fun p => rfl
  have hid2 : ∀ p : Player,
      ({ p with cards := jsSet p.cards j (jsGet P.cards i) }).id = p.id :=
    fun p => rfl
  have hres : handleSwitch g pid oid i j =
      ({ g with
          players := updateFirst
            (updateFirst g.players pid fun p =>
              { p with cards := jsSet p.cards i (jsGet O.cards j) })
            oid fun p =>
              { p with cards := jsSet p.cards j (jsGet P.cards i) } },
        .ok .cardsSwitched) := by
    simp [handleSwitch, hp, ho]
  rw [hres]
  refine ⟨rfl, ?_, ?_, jsGet_jsSet_same _ _ _, jsGet_jsSet_same _ _ _,
    fun k hk => jsGet_jsSet_other _ _ hk,
    fun k hk => jsGet_jsSet_other _ _ hk,
    fun qid hqp hqo => ?_, ?_, ?_,
    rfl, rfl, rfl, rfl, rfl, rfl, rfl, rfl, rfl, rfl, rfl⟩
  · rw [findPlayer_updateFirst_other _ _ hne hid2,
      findPlayer_updateFirst_self _ _ _ hid1, hp]
    rfl
  · rw [findPlayer_updateFirst_self _ _ _ hid2,
      findPlayer_updateFirst_other _ _ (fun he => hne he.symm) hid1, ho]
    rfl
  · rw [findPlayer_updateFirst_other _ _ hqo hid2,
      findPlayer_updateFirst_other _ _ hqp hid1]
  · rw [map_updateFirst _ _ _ _ hid2, map_updateFirst _ _ _ _ hid1]
  · have hsc1 : ∀ p : Player,
        ({ p with cards := jsSet p.cards i (jsGet O.cards j) }).score =
          p.score := fun p => rfl
    have hsc2 : ∀ p : Player,
        ({ p with cards := jsSet p.cards j (jsGet P.cards i) }).score =
          p.score := fun p => rfl
    rw [map_updateFirst _ _ _ _ hsc2, map_updateFirst _ _ _ _ hsc1]

theorem switch_cards_frame_witness :
    (handleSwitch demoPlaying "p1" "p2" 0 1).2 = .ok .cardsSwitched ∧
    findPlayer (handleSwitch demoPlaying "p1" "p2" 0 1).1.players "p1" =
      some { demoAlice with
        cards := jsSet demoAlice.cards 0 (jsGet demoBob.cards 1) } ∧
    (handleSwitch demoPlaying "p1" "p2" 0 1).1.deck = demoPlaying.deck ∧
    (handleSwitch demoPlaying "p1" "p2" 0 1).1.turnsAfterCabo =
      demoPlaying.turnsAfterCabo := by
  have h := switch_cards_frame demoPlaying "p1" "p2" 0 1 demoAlice demoBob
    (by decide) (by decide) (by decide)
  obtain ⟨h1, h2, -, -, -, -, -, -, -, -, -, -, -, -, h15, -, -, -, -, -,
    h21⟩ := h
  exact ⟨h1, h2, h15, h21⟩

/-! ### The shared end-of-resolve bookkeeping, characterised -/

theorem afterResolve_spec (g : Game) (hstate : g.state = .playing)
    (hcabo : g.caboCallerId.isSome) :
    (g.turnsAfterCabo + 1 ≥ g.players.length →
       afterResolve g =
         { g with
             turnsAfterCabo := g.turnsAfterCabo + 1
             players := g.players.map fun p =>
               { p with score := scoreHand p.cards }
             state := .finished }) ∧
    (g.turnsAfterCabo + 1 < g.players.length →
       afterResolve g =
         { g with
             turnsAfterCabo := g.turnsAfterCabo + 1
             currentTurn := (g.currentTurn + 1) % g.players.length
             currentPlayerId := (g.players.get?
               ((g.currentTurn + 1) % g.players.length)).map fun p =>
                 p.id }) := by
  constructor
  · intro hge
    simp [afterResolve, hcabo, hge]
  · intro hlt
    have hnot : ¬ g.turnsAfterCabo + 1 ≥ g.players.length := by omega
    simp [afterResolve, hcabo, hnot, hstate]

theorem afterResolve_piles (g : Game) :
    (afterResolve g).deck = g.deck ∧
    (afterResolve g).discardPile = g.discardPile ∧
    (afterResolve g).drawnCard = g.drawnCard ∧
    sumHands (afterResolve g).players = sumHands g.players ∧
    ((afterResolve g).players.map fun p => p.cards.length) =
      (g.players.map fun p => p.cards.length) := by
  by_cases h1 : g.caboCallerId.isSome
  · by_cases h2 : g.turnsAfterCabo + 1 ≥ g.players.length
    · simp [afterResolve, h1, h2, sumHands, List.map_map,
        Function.comp_def]
    · by_cases h3 : g.state = .playing <;>
        simp [afterResolve, h1, h2, h3]
  · by_cases h3 : g.state = .playing <;> simp [afterResolve, h1, h3]

/-! ### C7: hands keep exactly 4 slots -/

theorem hands4_updateFirst {ps : List Player} {pid : PlayerId}
    {f : Player → Player} (h4 : ∀ p ∈ ps, p.cards.length = 4)
    (hf : ∀ p, p.cards.length = 4 → (f p).cards.length = 4) :
    ∀ p' ∈ updateFirst ps pid f, p'.cards.length = 4 := by
  intro p' hm
  rcases mem_updateFirst ps pid f p' hm with hin | ⟨q, hq, he⟩
  · exact h4 p' hin
  · rw [he]
    exact hf q (h4 q hq)

theorem dealHands_len (ps : List Player) (d : List (Option Card)) :
    ∀ p' ∈ (dealHands ps d).1, p'.cards.length = 4 := by
  induction ps generalizing d with
  | nil => intro p' h; simp [dealHands] at h
  | cons p rest ih =>
    intro p' hm
    simp only [dealHands, List.mem_cons] at hm
    rcases hm with he | hm
    · rw [he]
      rfl
    · exact ih _ p' hm

theorem forall_len_of_map_eq {ps' ps : List Player}
    (h : (ps'.map fun p => p.cards.length) =
      (ps.map fun p => p.cards.length))
    (h4 : ∀ p ∈ ps, p.cards.length = 4) :
    ∀ p' ∈ ps', p'.cards.length = 4 := by
  intro p' hm
  have hmem : p'.cards.length ∈ ps'.map fun p => p.cards.length :=
    List.mem_map_of_mem _ hm
  rw [h] at hmem
  obtain ⟨q, hq, he⟩ := List.mem_map.mp hmem
  rw [← he]
  exact h4 q hq

theorem handleDraw_players (g : Game) (pid : PlayerId) :
    (handleDraw g pid).1.players = g.players := by
  simp only [handleDraw]
  split_ifs <;> rfl

theorem handleTakeDiscard_players (g : Game) (pid : PlayerId) :
    (handleTakeDiscard g pid).1.players = g.players := by
  simp only [handleTakeDiscard]
  split_ifs <;> rfl

theorem handleCallCabo_players (g : Game) (pid : PlayerId) :
    (handleCallCabo g pid).1.players = g.players := by
  simp only [handleCallCabo]
  split_ifs <;> rfl

/-- C7 (amended): with in-range slot indices (0‥3), every operation
preserves the invariant that each hand has exactly 4 slots, and START_GAME
(re)establishes it by dealing fresh 4-card hands.  (An out-of-range index —
which no legal client sends — grows the JS array instead; see the
counterexample theorem.) -/
theorem hand_slot_count (g : Game) (pid oid : PlayerId) (idx i j : Nat)
    (newDeck : List Card) (h4 : Hands4 g) :
    Hands4 (handleStart g newDeck).1 ∧
    Hands4 (handleDraw g pid).1 ∧
    Hands4 (handleTakeDiscard g pid).1 ∧
    Hands4 (handleCallCabo g pid).1 ∧
    (idx < 4 → Hands4 (handleReplace g pid idx).1) ∧
    Hands4 (handleDiscardDrawn g pid).1 ∧
    (i < 4 → j < 4 → Hands4 (handleSwitch g pid oid i j).1) := by
  refine ⟨?_, ?_, ?_, ?_, fun hidx => ?_, ?_, fun hi hj => ?_⟩
  · by_cases hl : g.players.length < 2
    · simpa [handleStart, hl] using h4
    · intro p' hm
      simp only [handleStart, hl, if_false] at hm
      exact dealHands_len _ _ p' hm
  · intro p hm
    rw [handleDraw_players] at hm
    exact h4 p hm
  · intro p hm
    rw [handleTakeDiscard_players] at hm
    exact h4 p hm
  · intro p hm
    rw [handleCallCabo_players] at hm
    exact h4 p hm
  · by_cases hguard : g.currentPlayerId ≠ some pid ∨ g.drawnCard = none
    · simpa [handleReplace, hguard] using h4
    · rcases hfp : findPlayer g.players pid with _ | P
      · simpa [handleReplace, hguard, hfp] using h4
      · have hg1 : Hands4 { g with
            players := updateFirst g.players pid fun p =>
              { p with cards := jsSet p.cards idx g.drawnCard }
            discardPile := jsPush g.discardPile (jsGet P.cards idx)
            drawnCard := none } := by
          intro p hm
          refine hands4_updateFirst h4 (fun q hq4 => ?_) p hm
          show (jsSet q.cards idx g.drawnCard).length = 4
          rw [length_jsSet_of_lt q.cards g.drawnCard (by omega), hq4]
        intro p hm
        simp only [handleReplace, hguard, if_false, hfp] at hm
        refine forall_len_of_map_eq (afterResolve_piles _).2.2.2.2 hg1 p ?_
        exact hm
  · by_cases hguard : g.currentPlayerId ≠ some pid ∨ g.drawnCard = none
    · simpa [handleDiscardDrawn, hguard] using h4
    · intro p hm
      simp only [handleDiscardDrawn, hguard, if_false] at hm
      refine forall_len_of_map_eq (afterResolve_piles _).2.2.2.2 ?_ p hm
      exact h4
  · rcases hfp : findPlayer g.players pid with _ | P
    · simpa [handleSwitch, hfp] using h4
    · rcases hfo : findPlayer g.players oid with _ | O
      · simpa [handleSwitch, hfp, hfo] using h4
      · intro p hm
        simp only [handleSwitch, hfp, hfo] at hm
        refine hands4_updateFirst (fun q hq => ?_) (fun q hq4 => ?_) p hm
        · refine hands4_updateFirst h4 (fun q2 hq24 => ?_) q hq
          show (jsSet q2.cards i (jsGet O.cards j)).length = 4
          rw [length_jsSet_of_lt q2.cards _ (by omega), hq24]
        · show (jsSet q.cards j (jsGet P.cards i)).length = 4
          rw [length_jsSet_of_lt q.cards _ (by omega), hq4]

theorem hand_slot_count_witness :
    Hands4 demoPlaying ∧ Hands4 (handleReplace demoDraw1 "p1" 2).1 :=
  ⟨by decide,
   (hand_slot_count demoDraw1 "p1" "p2" 2 0 0 baseDeck (by decide)).2.2.2.2.1
     (by omega)⟩

/-- C7 (counterexample to the claim as stated): a REPLACE_CARD with the
out-of-range slot index 9 is accepted and grows Alice's hand to 10 slots
(the JS assignment `player.cards[9] = drawnCard` extends the array), so the
4-slot invariant is not preserved under arbitrary indices. -/
theorem replace_out_of_range_grows_hand :
    (∀ p ∈ demoDraw1.players, p.cards.length = 4) ∧
    demoDraw1.state = .playing ∧
    (handleReplace demoDraw1 "p1" 9).2 = .ok .cardReplaced ∧
    (handleReplace demoDraw1 "p1" 9).1.state = .playing ∧
    ((handleReplace demoDraw1 "p1" 9).1.players.map fun p =>
        p.cards.length) = [10, 4] := by
  decide

/-! ### C2: card conservation -/

theorem countSomes_map_some (l : List Card) :
    countSomes (l.map some) = l.length := by
  simp [countSomes, List.filterMap_map]

theorem optCnt_none : optCnt none = 0 := rfl

theorem deal4_count (d : List (Option Card)) :
    countSomes (deal4 d).1 + countSomes (deal4 d).2 = countSomes d := by
  have e1 := countSomes_jsPop d
  have e2 := countSomes_jsPop (jsPop d).2
  have e3 := countSomes_jsPop (jsPop (jsPop d).2).2
  have e4 := countSomes_jsPop (jsPop (jsPop (jsPop d).2).2).2
  simp only [deal4, countSomes_cons, countSomes_nil]
  omega

theorem dealHands_count (ps : List Player) (d : List (Option Card)) :
    sumHands (dealHands ps d).1 + countSomes (dealHands ps d).2 =
      countSomes d := by
  induction ps generalizing d with
  | nil => simp [dealHands, sumHands]
  | cons p rest ih =>
    have h4 := deal4_count d
    have hr := ih (deal4 d).2
    simp only [dealHands, sumHands_cons]
    omega

theorem cardCount_afterResolve (g : Game) :
    cardCount (afterResolve g) = cardCount g := by
  obtain ⟨hd, hdp, hdr, hsh, -⟩ := afterResolve_piles g
  simp [cardCount, pileSum, hd, hdp, hdr, hsh]

/-- C2 (amended): the conserved quantity is
`|deck| + |discardPile| + Σ|hand|` **plus the held card when one is drawn
but unresolved**: START_GAME establishes `cardCount = 52` and every
in-game handler preserves `cardCount`.  Between an acquire and its resolve
the bare pile sum is only 51 (see the counterexample theorem). -/
theorem card_conservation (g : Game) (pid oid : PlayerId) (idx i j : Nat)
    (newDeck : List Card) :
    (g.drawnCard = none → ¬ g.players.length < 2 → newDeck.length = 52 →
       cardCount (handleStart g newDeck).1 = 52) ∧
    cardCount (handleDraw g pid).1 = cardCount g ∧
    cardCount (handleTakeDiscard g pid).1 = cardCount g ∧
    cardCount (handleCallCabo g pid).1 = cardCount g ∧
    cardCount (handleReplace g pid idx).1 = cardCount g ∧
    cardCount (handleDiscardDrawn g pid).1 = cardCount g ∧
    cardCount (handleSwitch g pid oid i j).1 = cardCount g := by
  refine ⟨fun hdrawn hlen h52 => ?_, ?_, ?_, ?_, ?_, ?_, ?_⟩
  · have hdeal := dealHands_count g.players (jsPop (newDeck.map some)).2
    have hpop := countSomes_jsPop (newDeck.map some)
    have hbase : countSomes (newDeck.map some) = 52 := by
      rw [countSomes_map_some, h52]
    simp only [handleStart, hlen, if_false, cardCount, pileSum, hdrawn,
      countSomes_cons, countSomes_nil, optCnt_none]
    omega
  · by_cases h1 : g.currentPlayerId ≠ some pid
    · simp [handleDraw, h1]
    · by_cases h2 : g.drawnCard.isSome
      · simp [handleDraw, h1, h2]
      · have hnone : g.drawnCard = none := Option.not_isSome_iff_eq_none.mp h2
        have hpop := countSomes_jsPop g.deck
        simp only [handleDraw, h1, ite_false, h2, Bool.false_eq_true,
          if_false, cardCount, pileSum, hnone, optCnt_none,
          Option.isSome_none]
        omega
  · by_cases h1 : g.currentPlayerId ≠ some pid
    · simp [handleTakeDiscard, h1]
    · by_cases h2 : g.drawnCard.isSome
      · simp [handleTakeDiscard, h1, h2]
      · have hnone : g.drawnCard = none := Option.not_isSome_iff_eq_none.mp h2
        have hpop := countSomes_jsPop g.discardPile
        simp only [handleTakeDiscard, h1, ite_false, h2, Bool.false_eq_true,
          if_false, cardCount, pileSum, hnone, optCnt_none,
          Option.isSome_none]
        omega
  · by_cases h1 : g.currentPlayerId ≠ some pid
    · simp [handleCallCabo, h1]
    · by_cases h2 : g.caboCallerId.isSome <;>
        simp [handleCallCabo, h1, h2, cardCount, pileSum]
  · by_cases hguard : g.currentPlayerId ≠ some pid ∨ g.drawnCard = none
    · simp [handleReplace, hguard]
    · rcases hfp : findPlayer g.players pid with _ | P
      · simp [handleReplace, hguard, hfp]
      · have hdrawn : g.drawnCard ≠ none := fun he => hguard (Or.inr he)
        have h1cnt : optCnt g.drawnCard = 1 := by
          rcases hopt : g.drawnCard with _ | c
          · exact absurd hopt hdrawn
          · rfl
        have hsum : sumHands (updateFirst g.players pid fun p =>
              { p with cards := jsSet p.cards idx g.drawnCard }) +
                countSomes P.cards =
              sumHands g.players +
                countSomes (jsSet P.cards idx g.drawnCard) :=
          sumHands_updateFirst g.players pid _ hfp
        have hset := countSomes_jsSet P.cards idx g.drawnCard
        have hpush := countSomes_jsPush g.discardPile (jsGet P.cards idx)
        simp only [handleReplace, hguard, if_false, hfp]
        rw [cardCount_afterResolve]
        simp only [cardCount, pileSum, optCnt_none, hpush]
        omega
  · by_cases hguard : g.currentPlayerId ≠ some pid ∨ g.drawnCard = none
    · simp [handleDiscardDrawn, hguard]
    · have hdrawn : g.drawnCard ≠ none := fun he => hguard (Or.inr he)
      have h1cnt : optCnt g.drawnCard = 1 := by
        rcases hopt : g.drawnCard with _ | c
        · exact absurd hopt hdrawn
        · rfl
      have hpush := countSomes_jsPush g.discardPile g.drawnCard
      simp only [handleDiscardDrawn, hguard, if_false]
      rw [cardCount_afterResolve]
      simp only [cardCount, pileSum, optCnt_none, hpush]
      omega
  · rcases hfp : findPlayer g.players pid with _ | P
    · simp [handleSwitch, hfp]
    · rcases hfo : findPlayer g.players oid with _ | O
      · simp [handleSwitch, hfp, hfo]
      · have hid1 : ∀ p : Player,
            ({ p with cards := jsSet p.cards i (jsGet O.cards j) }).id =
              p.id := fun p => rfl
        have hsum1 : sumHands (updateFirst g.players pid fun p =>
              { p with cards := jsSet p.cards i (jsGet O.cards j) }) +
                countSomes P.cards =
              sumHands g.players +
                countSomes (jsSet P.cards i (jsGet O.cards j)) :=
          sumHands_updateFirst g.players pid _ hfp
        have hset1 := countSomes_jsSet P.cards i (jsGet O.cards j)
        simp only [handleSwitch, hfp, hfo, cardCount, pileSum]
        by_cases heq : oid = pid
        · subst heq
          have hPO : P = O := by
            rw [hfp] at hfo
            exact Option.some.inj hfo
          subst hPO
          have hfp1 : findPlayer (updateFirst g.players oid fun p =>
                { p with cards := jsSet p.cards i (jsGet P.cards j) }) oid =
              some { P with cards := jsSet P.cards i (jsGet P.cards j) } := by
            rw [findPlayer_updateFirst_self _ _ _ hid1, hfp]
            rfl
          have hsum2 : sumHands (updateFirst (updateFirst g.players oid
                fun p => { p with
                  cards := jsSet p.cards i (jsGet P.cards j) }) oid fun p =>
                { p with cards := jsSet p.cards j (jsGet P.cards i) }) +
                countSomes (jsSet P.cards i (jsGet P.cards j)) =
              sumHands (updateFirst g.players oid fun p =>
                { p with cards := jsSet p.cards i (jsGet P.cards j) }) +
                countSomes (jsSet (jsSet P.cards i (jsGet P.cards j)) j
                  (jsGet P.cards i)) :=
            sumHands_updateFirst _ oid _ hfp1
          have hset2 := countSomes_jsSet (jsSet P.cards i (jsGet P.cards j))
            j (jsGet P.cards i)
          by_cases hij : j = i
          · subst hij
            rw [jsGet_jsSet_same] at hset2
            omega
          · rw [jsGet_jsSet_other _ _ hij] at hset2
            omega
        · have hfo1 : findPlayer (updateFirst g.players pid fun p =>
                { p with cards := jsSet p.cards i (jsGet O.cards j) }) oid =
              some O := by
            rw [findPlayer_updateFirst_other _ _ heq hid1, hfo]
          have hsum2 : sumHands (updateFirst (updateFirst g.players pid
                fun p => { p with
                  cards := jsSet p.cards i (jsGet O.cards j) }) oid fun p =>
                { p with cards := jsSet p.cards j (jsGet P.cards i) }) +
                countSomes O.cards =
              sumHands (updateFirst g.players pid fun p =>
                { p with cards := jsSet p.cards i (jsGet O.cards j) }) +
                countSomes (jsSet O.cards j (jsGet P.cards i)) :=
            sumHands_updateFirst _ oid _ hfo1
          have hset2 := countSomes_jsSet O.cards j (jsGet P.cards i)
          omega

/-- C2 (counterexample to the claim as stated): on the legal trace
create → join → start → draw, the bare pile sum
`|deck| + |discardPile| + Σ|hand|` is 52 right after START_GAME but only 51
at the observable state between Alice's DRAW_CARD and her resolve — the
drawn card sits in `drawnCard`, outside every pile. -/
theorem conservation_violated_while_held :
    (handleCreate [] "ABC123" "p1" "Alice").1 =
      [("ABC123", newGame "ABC123" "p1" "Alice")] ∧
    handleJoin [("ABC123", newGame "ABC123" "p1" "Alice")] "ABC123" "p2"
        "Bob" = ([("ABC123", demoLobby)], .ok .gameJoined) ∧
    (handleStart demoLobby baseDeck).2 = .ok .gameStarted ∧
    pileSum demoPlaying = 52 ∧
    (handleDraw demoPlaying "p1").2 = .ok .cardDrawn ∧
    (handleDraw demoPlaying "p1").1.drawnCard.isSome = true ∧
    pileSum (handleDraw demoPlaying "p1").1 = 51 := by
  decide

theorem card_conservation_witness :
    cardCount demoPlaying = 52 ∧
    cardCount (handleDraw demoPlaying "p1").1 = 52 := by
  have h52 : cardCount demoPlaying = 52 :=
    (card_conservation demoLobby "p1" "p2" 0 0 0 baseDeck).1 (by decide)
      (by decide) (by decide)
  have h2 := (card_conservation demoPlaying "p1" "p2" 0 0 0 baseDeck).2.1
  exact ⟨h52, by rw [h2, h52]⟩

/-! ### C1: the Cabo countdown -/

theorem afterResolve_countdown (g1 : Game) (hstate : g1.state = .playing)
    (hcabo : g1.caboCallerId.isSome) :
    (afterResolve g1).turnsAfterCabo = g1.turnsAfterCabo + 1 ∧
    (afterResolve g1).players.length = g1.players.length ∧
    (g1.turnsAfterCabo + 1 ≥ g1.players.length →
       (afterResolve g1).state = .finished ∧
       (afterResolve g1).currentTurn = g1.currentTurn ∧
       ∀ p ∈ (afterResolve g1).players, p.score = scoreHand p.cards) ∧
    (g1.turnsAfterCabo + 1 < g1.players.length →
       (afterResolve g1).state = .playing ∧
       (afterResolve g1).currentTurn =
         (g1.currentTurn + 1) % g1.players.length ∧
       (afterResolve g1).currentPlayerId =
         ((afterResolve g1).players.get? (afterResolve g1).currentTurn).map
           fun p => p.id) := by
  obtain ⟨hge_eq, hlt_eq⟩ := afterResolve_spec g1 hstate hcabo
  by_cases h : g1.turnsAfterCabo + 1 ≥ g1.players.length
  · rw [hge_eq h]
    refine ⟨rfl, by simp, fun _ => ⟨rfl, rfl, ?_⟩,
      fun hlt => absurd h (by omega)⟩
    intro p hp
    obtain ⟨q, hq, he⟩ := List.mem_map.mp hp
    rw [← he]
  · have hlt : g1.turnsAfterCabo + 1 < g1.players.length := by omega
    rw [hlt_eq hlt]
    exact ⟨rfl, rfl, fun hge => absurd hge h, fun _ => ⟨hstate, rfl, rfl⟩⟩

/-- C1: on a Playing session with Cabo called, a successful resolve step —
REPLACE_CARD or DISCARD_DRAWN by the current player — increments
`turnsAfterCabo`; when the incremented counter reaches the player count the
session transitions to Finished with no further turn advance and every
player's score set to `score(hand)` on the hand as it stands at that
moment; below the player count the session stays Playing and the turn
advances circularly, the current player being read off the new turn
index. -/
theorem cabo_countdown (g : Game) (pid : PlayerId) (idx : Nat)
    (hstate : g.state = .playing)
    (hcabo : g.caboCallerId.isSome)
    (hcur : g.currentPlayerId = some pid)
    (hheld : g.drawnCard.isSome)
    (hfind : (findPlayer g.players pid).isSome) :
    (handleReplace g pid idx).2 = .ok .cardReplaced ∧
    (handleDiscardDrawn g pid).2 = .ok .cardDiscarded ∧
    ∀ r, r = (handleReplace g pid idx).1 ∨
        r = (handleDiscardDrawn g pid).1 →
      r.turnsAfterCabo = g.turnsAfterCabo + 1 ∧
      r.players.length = g.players.length ∧
      (g.turnsAfterCabo + 1 ≥ g.players.length →
         r.state = .finished ∧ r.currentTurn = g.currentTurn ∧
         ∀ p ∈ r.players, p.score = scoreHand p.cards) ∧
      (g.turnsAfterCabo + 1 < g.players.length →
         r.state = .playing ∧
         r.currentTurn = (g.currentTurn + 1) % g.players.length ∧
         r.currentPlayerId =
           (r.players.get? r.currentTurn).map fun p => p.id) := by
  obtain ⟨P, hfp⟩ := Option.isSome_iff_exists.mp hfind
  have hguard : ¬ (g.currentPlayerId ≠ some pid ∨ g.drawnCard = none) := by
    rintro (h | h)
    · exact h hcur
    · exact Option.isSome_iff_ne_none.mp hheld h
  have hrep : handleReplace g pid idx =
      (afterResolve { g with
          players := updateFirst g.players pid fun p =>
            { p with cards := jsSet p.cards idx g.drawnCard }
          discardPile := jsPush g.discardPile (jsGet P.cards idx)
          drawnCard := none }, .ok .cardReplaced) := by
    simp [handleReplace, hguard, hfp]
  have hdis : handleDiscardDrawn g pid =
      (afterResolve { g with
          discardPile := jsPush g.discardPile g.drawnCard
          drawnCard := none }, .ok .cardDiscarded) := by
    simp [handleDiscardDrawn, hguard]
  refine ⟨by rw [hrep], by rw [hdis], fun r hr => ?_⟩
  rcases hr with he | he
  · rw [hrep] at he
    subst he
    have h1 := afterResolve_countdown
      { g with
          players := updateFirst g.players pid fun p =>
            { p with cards := jsSet p.cards idx g.drawnCard }
          discardPile := jsPush g.discardPile (jsGet P.cards idx)
          drawnCard := none } hstate hcabo
    have hlen : (updateFirst g.players pid fun p =>
        { p with cards := jsSet p.cards idx g.drawnCard }).length =
          g.players.length := length_updateFirst _ _ _
    refine ⟨h1.1, h1.2.1.trans hlen, fun hge => ?_, fun hlt => ?_⟩
    · obtain ⟨ha, hb, hc⟩ := h1.2.2.1 (by simpa [length_updateFirst]
        using hge)
      exact ⟨ha, hb, hc⟩
    · obtain ⟨ha, hb, hc⟩ := h1.2.2.2 (by simpa [length_updateFirst]
        using hlt)
      refine ⟨ha, hb.trans (by rw [hlen]), hc⟩
  · rw [hdis] at he
    subst he
    have h1 := afterResolve_countdown
      { g with
          discardPile := jsPush g.discardPile g.drawnCard
          drawnCard := none } hstate hcabo
    exact ⟨h1.1, h1.2.1, fun hge => h1.2.2.1 hge,
      fun hlt => h1.2.2.2 hlt⟩

/-- In `demoDraw2` (two players, Cabo called, one resolve already done,
Bob current and holding a drawn card) the next resolve is the second of
two, so it finishes the game and scores every hand. -/
theorem cabo_countdown_witness :
    (handleDiscardDrawn demoDraw2 "p2").2 = .ok .cardDiscarded ∧
    (handleDiscardDrawn demoDraw2 "p2").1.state = .finished ∧
    (handleDiscardDrawn demoDraw2 "p2").1.turnsAfterCabo = 2 ∧
    ∀ p ∈ (handleDiscardDrawn demoDraw2 "p2").1.players,
      p.score = scoreHand p.cards := by
  have h := cabo_countdown demoDraw2 "p2" 0 (by decide) (by decide)
    (by decide) (by decide) (by decide)
  have h2 := h.2.2 (handleDiscardDrawn demoDraw2 "p2").1 (Or.inr rfl)
  have h3 := h2.2.2.1 (by decide)
  refine ⟨h.2.1, h3.1, ?_, h3.2.2⟩
  rw [h2.1]
  decide
